import Mathlib

set_option autoImplicit false

/-!
Shallow embedding of the polybar-title-module program (src/main.rs): the
window-identifier data model and its textual encoding, the capitalization
strategy, the filter-resolution engine, and the fail-fast watch loop.
Protocol round trips to the X server are modelled as explicit
`Except`-valued oracles passed in; machine strings are Lean `String`s
(lists of Unicode scalar values, as in Rust).
-/

namespace PolybarTitleModule

/-- Embeds `WindowIdentifierKind` (src/main.rs lines 66-70). -/
inductive WindowIdentifierKind where
  | Class
  | Name
  deriving DecidableEq, Repr

/-- ASCII fragment of the Unicode lowercase mapping used by Rust's
`str::to_lowercase` (called in `WindowIdentifierKind::from_str`,
src/main.rs line 76); non-ASCII letters, which no configuration alias
contains, are left unchanged. -/
def charToLower (c : Char) : Char :=
  if 65 ≤ c.toNat ∧ c.toNat ≤ 90 then Char.ofNat (c.toNat + 32) else c

/-- Embeds `s.to_lowercase()` on the ASCII fragment (src/main.rs line 76). -/
def lowerStr (s : String) : String :=
  ⟨s.data.map charToLower⟩

/-- The alias spellings accepted for the `Class` kind (src/main.rs line 77). -/
def classAliases : List String :=
  ["wm_class", "wmc", "wc", "c", "cls", "wcls", "class"]

/-- The alias spellings accepted for the `Name` kind (src/main.rs line 78). -/
def nameAliases : List String :=
  ["wm_name", "wmn", "wn", "n", "name"]

/-- Embeds `impl FromStr for WindowIdentifierKind` (src/main.rs lines 72-82):
lowercase the input, then match it against the alias tables. -/
def WindowIdentifierKind.fromStr (s : String) : Except String WindowIdentifierKind :=
  let l := lowerStr s
  if classAliases.contains l then .ok .Class
  else if nameAliases.contains l then .ok .Name
  else .error "unknown window identifier kind"

/-- Embeds `WindowIdentifier` (src/main.rs lines 84-88). -/
structure WindowIdentifier where
  kind : WindowIdentifierKind
  value : String
  deriving DecidableEq, Repr

/-- Embeds Rust's `str::split_once` on the character-list view of a string:
split at the first occurrence of `c`, returning the parts before and after
it, or `none` when `c` does not occur. -/
def splitOnce (c : Char) : List Char → Option (List Char × List Char)
  | [] => none
  | x :: xs =>
    if x = c then some ([], xs)
    else
      match splitOnce c xs with
      | some (a, b) => some (x :: a, b)
      | none => none

/-- Embeds `impl FromStr for WindowIdentifier` (src/main.rs lines 90-102):
split at the first `=`, parse the part before it as a kind, keep the rest
verbatim as the value. -/
def WindowIdentifier.fromStr (s : String) : Except String WindowIdentifier :=
  match splitOnce '=' s.data with
  | none => .error "no = in window identifier"
  | some (discriminant, value) =>
    match WindowIdentifierKind.fromStr ⟨discriminant⟩ with
    | .ok kind => .ok ⟨kind, ⟨value⟩⟩
    | .error _ => .error "failed to resolve discriminant as a window identifier kind"

/-- Embeds `impl fmt::Display for WindowIdentifier` (src/main.rs lines
104-111): serialize canonically as `wm_class=<value>` or `wm_name=<value>`. -/
def WindowIdentifier.display (wi : WindowIdentifier) : String :=
  match wi.kind with
  | .Class => "wm_class=" ++ wi.value
  | .Name => "wm_name=" ++ wi.value

/-- Embeds `CapitalizeMode` (src/main.rs lines 227-234). -/
inductive CapitalizeMode where
  | FirstLetter
  | AllWords
  deriving DecidableEq, Repr

/-- Embeds Rust's `char::to_uppercase` (the full Unicode uppercase mapping,
which may expand one character to several), called in `capitalize_first`
(src/main.rs line 220).  Given here on the ASCII range together with the
multi-character expansion of U+00DF (the character ß, mapped to "SS");
other non-ASCII characters, which no claim exercises, map to themselves. -/
def charToUppercase (c : Char) : List Char :=
  if c = 'ß' then ['S', 'S']
  else if 97 ≤ c.toNat ∧ c.toNat ≤ 122 then [Char.ofNat (c.toNat - 32)]
  else [c]

/-- Embeds `capitalize_first` (src/main.rs lines 216-225): uppercase the
first character (possibly into several characters) and chain the remaining
characters unchanged. -/
def capitalize_first (s : String) : String :=
  match s.data with
  | [] => ""
  | c :: rest => ⟨charToUppercase c ++ rest⟩

/-! The `AllWords` mode calls `value.to_case(Case::Title)` from the
`convert_case` crate (src/main.rs line 240).  That conversion segments the
string into words at the crate's default boundaries — the delimiters space,
hyphen and underscore (which are dropped), a lowercase letter followed by an
uppercase one, two uppercase letters followed by a lowercase one (acronym
boundary), and letter/digit transitions — then renders each word with its
first character uppercased and the rest lowercased, joining the words with
single spaces.  The character classes below are the ASCII fragment of the
Unicode classes the crate uses. -/

/-- Delimiter boundary characters of the word segmentation: space, hyphen,
underscore.  Delimiters are dropped from the output. -/
def isDelim (c : Char) : Bool :=
  c.toNat == 32 || c.toNat == 45 || c.toNat == 95

/-- ASCII lowercase letter. -/
def isLowerCh (c : Char) : Bool :=
  97 ≤ c.toNat && c.toNat ≤ 122

/-- ASCII uppercase letter. -/
def isUpperCh (c : Char) : Bool :=
  65 ≤ c.toNat && c.toNat ≤ 90

/-- ASCII digit. -/
def isDigitCh (c : Char) : Bool :=
  48 ≤ c.toNat && c.toNat ≤ 57

/-- ASCII letter. -/
def isAlphaCh (c : Char) : Bool :=
  isUpperCh c || isLowerCh c

/-- Non-delimiter word boundaries of the segmentation: the split falls
between the previous character `p` and the current character `c`, with `n`
the character after `c` (needed for the acronym boundary). -/
def isBoundary (p c : Char) (n : Option Char) : Bool :=
  (isLowerCh p && isUpperCh c) ||
  (isUpperCh p && isUpperCh c && (match n with | some x => isLowerCh x | none => false)) ||
  (isAlphaCh p && isDigitCh c) ||
  (isDigitCh p && isAlphaCh c)

/-- Word segmentation of the Title-case conversion: walk the characters,
accumulating the current word (in reverse) in `cur`, with `p?` the previous
non-delimiter character; emit the accumulated word at a delimiter or in
front of a non-delimiter boundary. -/
def splitWordsGo (cur : List Char) (p? : Option Char) : List Char → List String
  | [] => if cur.isEmpty then [] else [⟨cur.reverse⟩]
  | c :: rest =>
    if isDelim c then
      (if cur.isEmpty then [] else [(⟨cur.reverse⟩ : String)]) ++ splitWordsGo [] none rest
    else if (match p? with | some p => isBoundary p c rest.head? | none => false) then
      (if cur.isEmpty then [] else [(⟨cur.reverse⟩ : String)]) ++ splitWordsGo [c] (some c) rest
    else
      splitWordsGo (c :: cur) (some c) rest

/-- Segment a string into words at the default boundaries. -/
def splitWords (s : String) : List String :=
  splitWordsGo [] none s.data

/-- ASCII fragment of Rust's `char::to_lowercase` as used on the tail of
each word by the Title-case pattern. -/
def charToLowercase (c : Char) : List Char :=
  if 65 ≤ c.toNat ∧ c.toNat ≤ 90 then [Char.ofNat (c.toNat + 32)] else [c]

/-- The capital pattern applied to one word by the Title-case conversion:
first character uppercased (possibly expanding), remaining characters
lowercased. -/
def titleWord (w : String) : String :=
  match w.data with
  | [] => ""
  | c :: rest => ⟨charToUppercase c ++ rest.flatMap charToLowercase⟩

/-- Joining the segmented words back together with single spaces, as the
Title-case conversion does. -/
def joinWords : List String → String
  | [] => ""
  | [w] => w
  | w :: ws => w ++ " " ++ joinWords ws

/-- Embeds `CapitalizeMode::capitalize` (src/main.rs lines 236-243):
`FirstLetter` is `capitalize_first`, `AllWords` is the `convert_case`
Title conversion (segment, capitalize each word, join with spaces). -/
def CapitalizeMode.capitalize (mode : CapitalizeMode) (value : String) : String :=
  match mode with
  | .FirstLetter => capitalize_first value
  | .AllWords => joinWords ((splitWords value).map titleWord)

/-- Embeds `Options` (src/main.rs lines 211-214). -/
structure Options where
  capitalize : Option CapitalizeMode
  deriving DecidableEq, Repr

/-- Embeds `Options::resolve` (src/main.rs lines 245-256): apply the
configured capitalization when present, otherwise pass the value through. -/
def Options.resolve (o : Options) (value : String) : String :=
  match o.capitalize with
  | some mode => mode.capitalize value
  | none => value

/-- Embeds `Filter` (src/main.rs lines 189-194). -/
inductive Filter where
  | Options (options : Options)
  | NewName (name : String)
  deriving DecidableEq, Repr

/-- Embeds `Filter::resolve` (src/main.rs lines 196-209): an `Options`
filter transforms the value, a `NewName` filter replaces it outright. -/
def Filter.resolve (f : Filter) (wm_class : String) : String :=
  match f with
  | .Options options => options.resolve wm_class
  | .NewName name => name

/-- Embeds `Resolver` (src/main.rs lines 113-119).  The `filters` hash map
is modelled as an association list with structurally-equal keys unique, the
invariant the configuration loader establishes. -/
structure Resolver where
  global_options : Option Options
  desktop_name : Option String
  filters : List (WindowIdentifier × Filter)
  deriving DecidableEq, Repr

/-- Embeds `HashMap::get` on the association-list model of `filters`:
return the filter stored under a structurally equal key, if any. -/
def findFilter : List (WindowIdentifier × Filter) → WindowIdentifier → Option Filter
  | [], _ => none
  | (k, f) :: rest, key => if k = key then some f else findFilter rest key

/-- Embeds `Resolver::resolve` (src/main.rs lines 122-175).  The two
protocol round trips (WM_CLASS and WM_NAME, each of which can fail with a
protocol or encoding error) are passed in as `Except`-valued oracles; a
window handle of `0` returns `desktop_name` (defaulting to the empty
string) before either oracle is consulted.  Otherwise the filter is chosen
by class key, else by name key, else from `global_options`, and applied to
the WM_CLASS value; with no filter the WM_CLASS value is returned as is. -/
def Resolver.resolve (r : Resolver) (window : Nat)
    (queryClass queryName : Except String String) : Except String String :=
  if window = 0 then .ok (r.desktop_name.getD "")
  else do
    let wm_class ← queryClass
    let wm_name ← queryName
    let filter :=
      ((findFilter r.filters ⟨.Class, wm_class⟩).orElse fun _ =>
        findFilter r.filters ⟨.Name, wm_name⟩).orElse fun _ =>
        r.global_options.map Filter.Options
    match filter with
    | some f => .ok (f.resolve wm_class)
    | none => .ok wm_class

/-- One received X event together with the outcomes of the protocol round
trips the watch loop would issue for it (src/main.rs lines 299-346): the
`GetAtomName` reply (with its UTF-8 decoding), the first 32-bit value of
the changed property (errors cover both a reply failure and a missing
value), and the WM_CLASS / WM_NAME queries consumed by `Resolver::resolve`. -/
structure EventData where
  isPropertyNotify : Bool
  atomName : Except String String
  propertyValue : Except String Nat
  classValue : Except String String
  nameValue : Except String String

/-- Embeds the body of the watch loop for one event (src/main.rs lines
304-345): ignore events that are not `PropertyNotify`; resolve the atom
name; ignore atoms other than `_NET_ACTIVE_WINDOW`; otherwise read the
window handle, resolve the window name, render it through the template
(`render` is the handlebars oracle, which can fail), and emit one line.
`ok none` means the event was discarded, `ok (some line)` that `line` was
printed; any `error` propagates out of the loop. -/
def processEvent (r : Resolver) (render : String → Except String String)
    (e : EventData) : Except String (Option String) :=
  if e.isPropertyNotify then do
    let atomName ← e.atomName
    if atomName = "_NET_ACTIVE_WINDOW" then do
      let value ← e.propertyValue
      let resolvedName ← r.resolve value e.classValue e.nameValue
      let renderedName ← render resolvedName
      pure (some renderedName)
    else
      pure none
  else
    pure none

/-- Embeds the watch loop of `real_main` (src/main.rs lines 299-346) run on
a finite prefix of the event stream: the lines printed so far, and the
error that aborted the loop, if one occurred.  The first failing event
stops the loop; no later event is examined. -/
def runEvents (r : Resolver) (render : String → Except String String) :
    List EventData → List String × Option String
  | [] => ([], none)
  | e :: es =>
    match processEvent r render e with
    | .error msg => ([], some msg)
    | .ok none => runEvents r render es
    | .ok (some line) =>
      let p := runEvents r render es
      (line :: p.1, p.2)

/-- Embeds `main` (src/main.rs lines 349-357) around the loop: when
`real_main` returns an error, print the fixed crash line and exit with the
failure status (exit code 1); otherwise the process is still blocked in the
loop (no exit code). -/
def mainOutput (r : Resolver) (render : String → Except String String)
    (events : List EventData) : List String × Option Nat :=
  match runEvents r render events with
  | (lines, some _) => (lines ++ ["PolyBar title module crashed!"], some 1)
  | (lines, none) => (lines, none)

/-- A concrete resolver used to exercise the theorems below: the default
`global_options` together with one `NewName` filter keyed by class. -/
def exampleResolver : Resolver :=
  ⟨some ⟨some .FirstLetter⟩, none, [(⟨.Class, "firefox"⟩, .NewName "Browser")]⟩

/-- A render oracle that succeeds with the identity template (the default
template of the program renders the resolved name unchanged). -/
def okRender (s : String) : Except String String := .ok s

/-- A `PropertyNotify` event whose `GetAtomName` round trip fails. -/
def failingEvent : EventData :=
  ⟨true, .error "GetAtomName response failed", .ok 0, .ok "", .ok ""⟩

/-! ## Theorems -/

/-- Claim C2: for every resolver, a window handle of zero resolves
successfully to `desktop_name` (or the empty string when it is unset),
whatever the protocol oracles would do — in particular they are never
consulted, since the result is independent of them and succeeds even when
both would fail. -/
theorem resolve_zero_window (r : Resolver) (queryClass queryName : Except String String) :
    r.resolve 0 queryClass queryName = .ok (r.desktop_name.getD "") := rfl

/-- Claim C4: a `NewName` filter resolves every input to its configured
literal string, discarding the queried value; in particular
`NewName "Foo"` always resolves to `"Foo"`. -/
theorem newName_filter_verbatim (s v : String) :
    (Filter.NewName s).resolve v = s ∧ (Filter.NewName "Foo").resolve "firefox" = "Foo" :=
  ⟨rfl, rfl⟩

/-- Claim C5: an `Options` filter applies the configured capitalization
mode when the `capitalize` field is set, and returns the value completely
unchanged when the field is absent. -/
theorem options_filter_capitalize (m : CapitalizeMode) (v : String) :
    Options.resolve ⟨some m⟩ v = m.capitalize v ∧ Options.resolve ⟨none⟩ v = v :=
  ⟨rfl, rfl⟩

/-- Claim C6: `capitalize` in `FirstLetter` mode is total over every
string: the empty string maps to itself, and a non-empty string maps its
first character through the Unicode uppercase mapping (multi-character
expansions such as ß → "SS" preserved) while the remaining characters are
unchanged; in particular `"firefox"` maps to `"Firefox"`. -/
theorem capitalize_firstLetter_spec (c : Char) (rest : List Char) :
    CapitalizeMode.capitalize .FirstLetter "" = "" ∧
    CapitalizeMode.capitalize .FirstLetter "firefox" = "Firefox" ∧
    CapitalizeMode.capitalize .FirstLetter ⟨['ß']⟩ = "SS" ∧
    CapitalizeMode.capitalize .FirstLetter ⟨c :: rest⟩ = ⟨charToUppercase c ++ rest⟩ :=
  ⟨rfl, by decide, by decide, rfl⟩

/-- `split_once` finds the separator at the head of the remainder when the
part before it is free of the separator. -/
theorem splitOnce_append (c : Char) (b : List Char) :
    ∀ a : List Char, c ∉ a → splitOnce c (a ++ c :: b) = some (a, b) := by
  intro a
  induction a with
  | nil => intro _; simp [splitOnce]
  | cons x xs ih =>
    intro h
    have hx : ¬x = c := fun hxc => h (hxc ▸ List.mem_cons_self x xs)
    simp only [List.cons_append, splitOnce, if_neg hx, List.append_eq,
      ih (fun hm => h (List.mem_cons_of_mem x hm))]

/-- `split_once` fails exactly when the separator does not occur. -/
theorem splitOnce_none (c : Char) :
    ∀ l : List Char, c ∉ l → splitOnce c l = none := by
  intro l
  induction l with
  | nil => intro _; rfl
  | cons x xs ih =>
    intro h
    have hx : ¬x = c := fun hxc => h (hxc ▸ List.mem_cons_self x xs)
    simp only [splitOnce, if_neg hx, ih (fun hm => h (List.mem_cons_of_mem x hm))]

/-- Claim C8: serializing `WindowIdentifier{Class, "x"}` produces exactly
`"wm_class=x"`; parsing `"wm_class=x"` reproduces the identical
identifier; and parsing any string that contains no `=` character fails
(with the no-separator error). -/
theorem windowIdentifier_roundtrip (s : String) (h : '=' ∉ s.data) :
    WindowIdentifier.display ⟨.Class, "x"⟩ = "wm_class=x" ∧
    WindowIdentifier.fromStr "wm_class=x" = .ok ⟨.Class, "x"⟩ ∧
    WindowIdentifier.fromStr s = .error "no = in window identifier" := by
  refine ⟨rfl, rfl, ?_⟩
  unfold WindowIdentifier.fromStr
  rw [splitOnce_none '=' s.data h]

/-- Witness for claim C8 at the concrete separator-free input `"firefox"`. -/
theorem windowIdentifier_roundtrip_witness :
    ('=' ∉ "firefox".data) ∧
    (WindowIdentifier.display ⟨.Class, "x"⟩ = "wm_class=x" ∧
      WindowIdentifier.fromStr "wm_class=x" = .ok ⟨.Class, "x"⟩ ∧
      WindowIdentifier.fromStr "firefox" = .error "no = in window identifier") :=
  ⟨by decide, windowIdentifier_roundtrip "firefox" (by decide)⟩

/-- Claim C9: kind parsing lowercases its input and accepts exactly the
alias tables (`wm_class`, `wmc`, `wc`, `c`, `cls`, `wcls`, `class` for
`Class`; `wm_name`, `wmn`, `wn`, `n`, `name` for `Name`), failing on
everything else; it is case-insensitive in that two inputs with the same
lowercasing parse identically; and serialization always uses the canonical
`wm_class=` / `wm_name=` forms. -/
theorem kind_alias_table (s t v : String) (h : lowerStr s = lowerStr t) :
    (WindowIdentifierKind.fromStr s = .ok .Class ↔ classAliases.contains (lowerStr s) = true) ∧
    (WindowIdentifierKind.fromStr s = .ok .Name ↔
      (classAliases.contains (lowerStr s) = false ∧ nameAliases.contains (lowerStr s) = true)) ∧
    (WindowIdentifierKind.fromStr s = .error "unknown window identifier kind" ↔
      (classAliases.contains (lowerStr s) = false ∧ nameAliases.contains (lowerStr s) = false)) ∧
    WindowIdentifierKind.fromStr s = WindowIdentifierKind.fromStr t ∧
    WindowIdentifier.display ⟨.Class, v⟩ = "wm_class=" ++ v ∧
    WindowIdentifier.display ⟨.Name, v⟩ = "wm_name=" ++ v := by
  refine ⟨?_, ?_, ?_, ?_, rfl, rfl⟩
  · simp only [WindowIdentifierKind.fromStr]
    split_ifs with h1 h2 <;> simp_all
  · simp only [WindowIdentifierKind.fromStr]
    split_ifs with h1 h2 <;> simp_all
  · simp only [WindowIdentifierKind.fromStr]
    split_ifs with h1 h2 <;> simp_all
  · simp only [WindowIdentifierKind.fromStr, h]

/-- Witness for claim C9: `"WM_Class"` and `"wm_class"` lowercase to the
same spelling and both parse as `Class`. -/
theorem kind_alias_table_witness :
    (lowerStr "WM_Class" = lowerStr "wm_class") ∧
    ((WindowIdentifierKind.fromStr "WM_Class" = .ok .Class ↔
        classAliases.contains (lowerStr "WM_Class") = true) ∧
      (WindowIdentifierKind.fromStr "WM_Class" = .ok .Name ↔
        (classAliases.contains (lowerStr "WM_Class") = false ∧
          nameAliases.contains (lowerStr "WM_Class") = true)) ∧
      (WindowIdentifierKind.fromStr "WM_Class" = .error "unknown window identifier kind" ↔
        (classAliases.contains (lowerStr "WM_Class") = false ∧
          nameAliases.contains (lowerStr "WM_Class") = false)) ∧
      WindowIdentifierKind.fromStr "WM_Class" = WindowIdentifierKind.fromStr "wm_class" ∧
      WindowIdentifier.display ⟨.Class, "v"⟩ = "wm_class=" ++ "v" ∧
      WindowIdentifier.display ⟨.Name, "v"⟩ = "wm_name=" ++ "v") :=
  ⟨by decide, kind_alias_table "WM_Class" "wm_class" "v" (by decide)⟩

/-- Claim C10: identifier parsing splits at the first `=` only: a valid
kind followed by a bare `=` parses with the empty value, a value containing
further `=` characters is kept whole, and in general any value `v` —
whatever characters it contains — round-trips through `"wm_class=" ++ v`. -/
theorem windowIdentifier_split_at_first (v : String) :
    WindowIdentifier.fromStr ("wm_class=" ++ v) = .ok ⟨.Class, v⟩ ∧
    WindowIdentifier.fromStr "wm_class=" = .ok ⟨.Class, ""⟩ ∧
    WindowIdentifier.fromStr "wm_class=a=b" = .ok ⟨.Class, "a=b"⟩ := by
  refine ⟨?_, rfl, rfl⟩
  have h1 : ("wm_class=" ++ v).data = "wm_class".data ++ '=' :: v.data := rfl
  unfold WindowIdentifier.fromStr
  rw [h1, splitOnce_append '=' v.data "wm_class".data (by decide)]
  rfl

/-- Claim C1: for every resolver and every class/name pair obtained from a
non-zero window, resolution follows the priority chain — the class-keyed
filter if present (its output returned even when a name-keyed filter also
matches), else the name-keyed filter, else `global_options` as an implicit
`Options` filter applied to the class value (not the name value), else the
class value unchanged. -/
theorem resolve_priority_chain (r : Resolver) (w : Nat) (hw : w ≠ 0) (c n : String) :
    r.resolve w (.ok c) (.ok n) = .ok
      (match findFilter r.filters ⟨.Class, c⟩, findFilter r.filters ⟨.Name, n⟩,
          r.global_options with
        | some f, _, _ => f.resolve c
        | none, some f, _ => f.resolve c
        | none, none, some o => o.resolve c
        | none, none, none => c) := by
  unfold Resolver.resolve
  rw [if_neg hw]
  cases hC : findFilter r.filters ⟨.Class, c⟩ <;>
    cases hN : findFilter r.filters ⟨.Name, n⟩ <;>
      cases hG : r.global_options <;>
        simp [hC, hN, hG, Option.orElse, Filter.resolve, Except.bind, bind]

/-- Witness for claim C1: on the example resolver, window 1 with class
value `"firefox"` hits the class-keyed `NewName "Browser"` filter. -/
theorem resolve_priority_chain_witness :
    (1 ≠ 0) ∧
    exampleResolver.resolve 1 (.ok "firefox") (.ok "nm") = .ok "Browser" :=
  ⟨one_ne_zero, (resolve_priority_chain exampleResolver 1 one_ne_zero "firefox" "nm").trans rfl⟩

/-- The watch loop processes a prefix that raises no error positionally:
its output lines come first, and the remaining events are processed
afterwards. -/
theorem runEvents_append (r : Resolver) (render : String → Except String String) :
    ∀ pre rest : List EventData, (runEvents r render pre).2 = none →
      runEvents r render (pre ++ rest) =
        ((runEvents r render pre).1 ++ (runEvents r render rest).1,
          (runEvents r render rest).2) := by
  intro pre
  induction pre with
  | nil => intro rest _; simp [runEvents]
  | cons e es ih =>
    intro rest h
    cases hp : processEvent r render e with
    | error msg => simp [runEvents, hp] at h
    | ok o =>
      cases o with
      | none =>
        simp only [runEvents, hp] at h ⊢
        exact ih rest h
      | some line =>
        simp only [runEvents, hp] at h ⊢
        rw [show es.append rest = es ++ rest from rfl, ih rest h]
        simp

/-- Claim C3: any error raised while processing an event aborts the watch
loop entirely — no event after the failing one is examined, there is no
retry — and the process prints the fixed crash line
`"PolyBar title module crashed!"` and exits with the failure status
(exit code 1).  The lines printed by the error-free prefix are exactly
what was emitted before the crash. -/
theorem watch_loop_fail_fast (r : Resolver) (render : String → Except String String)
    (pre : List EventData) (e : EventData) (es : List EventData) (msg : String)
    (hpre : (runEvents r render pre).2 = none)
    (he : processEvent r render e = .error msg) :
    mainOutput r render (pre ++ e :: es) =
      ((runEvents r render pre).1 ++ ["PolyBar title module crashed!"], some 1) := by
  unfold mainOutput
  rw [runEvents_append r render pre (e :: es) hpre]
  simp [runEvents, he]

/-- Witness for claim C3: a single event whose `GetAtomName` round trip
fails crashes the watcher immediately, whatever events would follow. -/
theorem watch_loop_fail_fast_witness :
    ((runEvents exampleResolver okRender []).2 = none) ∧
    (processEvent exampleResolver okRender failingEvent =
      .error "GetAtomName response failed") ∧
    mainOutput exampleResolver okRender ([] ++ failingEvent :: [failingEvent]) =
      ((runEvents exampleResolver okRender []).1 ++ ["PolyBar title module crashed!"],
        some 1) :=
  ⟨rfl, rfl,
    watch_loop_fail_fast exampleResolver okRender [] failingEvent [failingEvent]
      "GetAtomName response failed" rfl rfl⟩

/-- Unfolding lemma: the segmentation on an exhausted input. -/
theorem splitWordsGo_nil (cur : List Char) (p? : Option Char) :
    splitWordsGo cur p? [] = if cur.isEmpty then [] else [⟨cur.reverse⟩] := rfl

/-- Unfolding lemma: one step of the segmentation. -/
theorem splitWordsGo_cons (cur : List Char) (p? : Option Char) (c : Char) (rest : List Char) :
    splitWordsGo cur p? (c :: rest) =
      if isDelim c then
        (if cur.isEmpty then [] else [(⟨cur.reverse⟩ : String)]) ++ splitWordsGo [] none rest
      else if (match p? with | some p => isBoundary p c rest.head? | none => false) then
        (if cur.isEmpty then [] else [(⟨cur.reverse⟩ : String)]) ++ splitWordsGo [c] (some c) rest
      else
        splitWordsGo (c :: cur) (some c) rest := by
  rw [splitWordsGo.eq_def]

/-- An ASCII lowercase letter is not a delimiter, not uppercase and not a
digit. -/
theorem lower_char_facts (c : Char) (h : isLowerCh c = true) :
    isDelim c = false ∧ isUpperCh c = false ∧ isDigitCh c = false := by
  simp [isLowerCh, isDelim, isUpperCh, isDigitCh] at *
  omega

/-- No word boundary falls in front of a lowercase letter whose predecessor
is not a digit. -/
theorem isBoundary_lower (p c : Char) (n : Option Char) (hc : isLowerCh c = true)
    (hp : isDigitCh p = false) : isBoundary p c n = false := by
  have h := lower_char_facts c hc
  simp [isBoundary, h.2.1, h.2.2, hp]

/-- The segmentation walks through a run of lowercase letters without
splitting: the run is accumulated onto the current word and the previous
character becomes the run's last letter. -/
theorem splitWordsGo_lower_append (w : List Char) :
    ∀ (cur : List Char) (p? : Option Char) (rest : List Char),
      (∀ x ∈ w, isLowerCh x = true) →
      (∀ p, p? = some p → isDigitCh p = false) →
      splitWordsGo cur p? (w ++ rest) =
        splitWordsGo (w.reverse ++ cur) (w.foldl (fun _ c => some c) p?) rest := by
  induction w with
  | nil => intros; simp
  | cons c w ih =>
    intro cur p? rest hw hp
    have hc : isLowerCh c = true := hw c (List.mem_cons_self c w)
    have hf := lower_char_facts c hc
    rw [List.cons_append, splitWordsGo_cons, if_neg (by simp [hf.1]),
      if_neg (by
        cases p? with
        | none => exact Bool.false_ne_true
        | some p =>
          have hbl : ∀ m : Option Char, isBoundary p c m = false :=
            fun m => isBoundary_lower p c m hc (hp p rfl)
          simp [hbl])]
    rw [ih (c :: cur) (some c) rest (fun x hx => hw x (List.mem_cons_of_mem c hx))
      (fun p hps => by cases hps; exact hf.2.2)]
    simp

/-- Re-segmenting a space-joined list of non-empty all-lowercase words
recovers exactly that list. -/
theorem splitWords_joinWords (ws : List String) (hne : ws ≠ [])
    (h : ∀ w ∈ ws, w.data ≠ [] ∧ ∀ c ∈ w.data, isLowerCh c = true) :
    splitWords (joinWords ws) = ws := by
  induction ws with
  | nil => exact absurd rfl hne
  | cons w ws ih =>
    obtain ⟨hwne, hwlow⟩ := h w (List.mem_cons_self w ws)
    have hrev : w.data.reverse.isEmpty = false := by
      cases hd : w.data with
      | nil => exact absurd hd hwne
      | cons a l => simp [hd]
    cases ws with
    | nil =>
      show splitWordsGo [] none (joinWords [w]).data = [w]
      have hj : joinWords [w] = w := rfl
      rw [hj, show w.data = w.data ++ [] from (List.append_nil w.data).symm,
        splitWordsGo_lower_append w.data [] none [] hwlow (by intro p hps; cases hps)]
      rw [splitWordsGo_nil]
      simp only [List.append_nil, hrev, if_neg Bool.false_ne_true, List.reverse_reverse]
    | cons w2 ws2 =>
      have hj : joinWords (w :: w2 :: ws2) = w ++ " " ++ joinWords (w2 :: ws2) := rfl
      have hdata : (w ++ " " ++ joinWords (w2 :: ws2)).data =
          w.data ++ (' ' :: (joinWords (w2 :: ws2)).data) := by
        simp [String.data_append]
      show splitWordsGo [] none (joinWords (w :: w2 :: ws2)).data = _
      rw [hj, hdata,
        splitWordsGo_lower_append w.data [] none (' ' :: (joinWords (w2 :: ws2)).data)
          hwlow (by intro p hps; cases hps)]
      rw [splitWordsGo_cons, if_pos (by simp [isDelim])]
      simp only [List.append_nil, hrev, if_neg Bool.false_ne_true, List.reverse_reverse]
      rw [show splitWordsGo [] none (joinWords (w2 :: ws2)).data =
          splitWords (joinWords (w2 :: ws2)) from rfl,
        ih (List.cons_ne_nil w2 ws2) (fun x hx => h x (List.mem_cons_of_mem w hx))]
      rfl

/-- Claim C7: `AllWords` applies the Title-case conversion — segment the
string at word boundaries, uppercase the first character of each word and
lowercase the rest, joining with spaces.  In general a space-joined list of
non-empty lowercase words maps to the word-wise capital pattern, and in
particular `"visual studio code"` maps to `"Visual Studio Code"` (and the
all-uppercase `"VISUAL STUDIO"` has its word tails lowercased to
`"Visual Studio"`). -/
theorem allwords_title_case (ws : List String) (hne : ws ≠ [])
    (h : ∀ w ∈ ws, w.data ≠ [] ∧ ∀ c ∈ w.data, isLowerCh c = true) :
    CapitalizeMode.capitalize .AllWords (joinWords ws) = joinWords (ws.map titleWord) ∧
    CapitalizeMode.capitalize .AllWords "visual studio code" = "Visual Studio Code" ∧
    CapitalizeMode.capitalize .AllWords "VISUAL STUDIO" = "Visual Studio" := by
  refine ⟨?_, by decide, by decide⟩
  show joinWords ((splitWords (joinWords ws)).map titleWord) = _
  rw [splitWords_joinWords ws hne h]

/-- Witness for claim C7 at the spec's example sentence. -/
theorem allwords_title_case_witness :
    ((["visual", "studio", "code"] : List String) ≠ [] ∧
      (∀ w ∈ (["visual", "studio", "code"] : List String),
        w.data ≠ [] ∧ ∀ c ∈ w.data, isLowerCh c = true)) ∧
    (CapitalizeMode.capitalize .AllWords (joinWords ["visual", "studio", "code"]) =
        joinWords ((["visual", "studio", "code"] : List String).map titleWord) ∧
      CapitalizeMode.capitalize .AllWords "visual studio code" = "Visual Studio Code" ∧
      CapitalizeMode.capitalize .AllWords "VISUAL STUDIO" = "Visual Studio") :=
  ⟨⟨by decide, by decide⟩,
    allwords_title_case ["visual", "studio", "code"] (by decide) (by decide)⟩

end PolybarTitleModule
